import Mathlib

/-!
Verification of the m2x-python request/response core (src/m2x/api.py and
src/m2x/utils.py) via a shallow embedding.

Conventions of the embedding:
* Python `dict`s holding JSON data are modelled by the inductive `JsonVal`;
  JSON numbers are modelled as `Int` (the statuses and fields the claims
  touch are integers).
* The pending-reply table `self.responses` (a Python dict keyed by message
  id) is an association list with Python-dict insert/pop semantics.
* `requests`' response object is modelled abstractly by `RawHTTPResponse`;
  its `json()` method, which raises `ValueError` on an undecodable body, is
  modelled as the `Option`-valued field `jsonBody` (`none` = decode failure).
* Exceptions are modelled with `Except`; an implicit Python `return None`
  is `Option.none`.
-/

/-- Model of a JSON value as decoded by `json.loads`. Numbers are `Int`:
every status code and field the claims use is integral. -/
inductive JsonVal where
  | null
  | bool (b : Bool)
  | num (n : Int)
  | str (s : String)
  | arr (elems : List JsonVal)
  | obj (fields : List (String × JsonVal))

/-- Python `msg['k']` / `'k' in msg` on a decoded JSON object: field lookup,
`none` when the key is absent or the value is not an object. -/
def getField (j : JsonVal) (k : String) : Option JsonVal :=
  match j with
  | .obj fields => fields.lookup k
  | _ => none

/-- The raw body carried by a `Response`: `response.content` bytes for HTTP,
the whole decoded reply envelope for MQTT. -/
inductive RawBody where
  | bytes (s : String)
  | json (j : JsonVal)

/-- Model of the `Response` base class (api.py lines 78-100): status,
headers, raw body and the parsed JSON body (`none` when decoding failed). -/
structure Response where
  raw : RawBody
  status : Int
  headers : List (String × String)
  json : Option JsonVal

/-- Python property `Response.success`: `self.status >= 200 and self.status < 300`. -/
def Response.success (r : Response) : Bool :=
  decide (200 ≤ r.status) && decide (r.status < 300)

/-- Python property `Response.client_error`: `self.status >= 400 and self.status < 500`. -/
def Response.client_error (r : Response) : Bool :=
  decide (400 ≤ r.status) && decide (r.status < 500)

/-- Python property `Response.server_error`: `self.status >= 500` (note: no
upper bound in the source). -/
def Response.server_error (r : Response) : Bool :=
  decide (500 ≤ r.status)

/-- Python property `Response.error`: `self.client_error or self.server_error`. -/
def Response.error (r : Response) : Bool :=
  r.client_error || r.server_error

/-- Abstract model of the `requests` library response object returned by
`session.request`: status code, body bytes, headers, and the result of
`.json()` (`none` models the `ValueError` raised on an undecodable body). -/
structure RawHTTPResponse where
  status_code : Int
  content : String
  headers : List (String × String)
  jsonBody : Option JsonVal

/-- Model of `requests.HTTPError` as raised by `raise_for_status`: it carries
the status and the offending response (hence its body). -/
structure HTTPError where
  status : Int
  response : RawHTTPResponse

/-- Modelled from the behaviour of the external `requests` library (not in
src/): `Response.raise_for_status` raises `HTTPError` exactly when
`400 <= status_code < 600` and attaches the response. -/
def raise_for_status (resp : RawHTTPResponse) : Except HTTPError Unit :=
  if 400 ≤ resp.status_code ∧ resp.status_code < 600 then
    .error ⟨resp.status_code, resp⟩
  else
    .ok ()

/-- The `HTTPResponse` constructor (api.py lines 103-115): `json` comes from
`response.json()` with the `ValueError` caught and turned into `None`
(already `Option`-valued in `RawHTTPResponse.jsonBody`); `raw` is
`response.content`, `status` is `response.status_code`. -/
def HTTPResponse.make (resp : RawHTTPResponse) : Response :=
  { raw := .bytes resp.content
    status := resp.status_code
    headers := resp.headers
    json := resp.jsonBody }

/-- What `HTTPAPIBase.request` hands back to the caller on the non-raising
paths: `None` for a 204, the decoded JSON body, or the raw response object
when the body is not valid JSON. -/
inductive HTTPValue where
  | noContent
  | jsonVal (j : JsonVal)
  | rawResponse (r : RawHTTPResponse)

/-- The response-handling tail of `HTTPAPIBase.request` (api.py lines
154-164), taking the already-received `resp` from `session.request` (URL
building, header setup and body serialization precede the call and do not
affect this logic). The first component is the value stored into the
thread-local `last_response` slot; the second is the returned value or the
raised `HTTPError`. -/
def http_request (resp : RawHTTPResponse) : Response × Except HTTPError HTTPValue :=
  let lastResponse := HTTPResponse.make resp
  (lastResponse,
    if resp.status_code = 204 then
      .ok .noContent
    else
      match raise_for_status resp with
      | .error e => .error e
      | .ok () =>
        match resp.jsonBody with
        | some j => .ok (.jsonVal j)
        | none => .ok (.rawResponse resp))

/-- C3: every HTTP response with a 4xx or 5xx status code makes `request`
raise an `HTTPError` carrying that status (and the response) rather than
return a value. -/
theorem http_request_error_status (resp : RawHTTPResponse)
    (h400 : 400 ≤ resp.status_code) (h600 : resp.status_code < 600) :
    (http_request resp).2 = .error ⟨resp.status_code, resp⟩ := by
  have h204 : resp.status_code ≠ 204 := by omega
  simp [http_request, raise_for_status, h204, h400, h600]

/-- Witness for C3: a 404 response raises an `HTTPError` carrying 404. -/
theorem http_request_error_status_witness :
    (http_request ⟨404, "not found", [], none⟩).2 =
      .error ⟨404, ⟨404, "not found", [], none⟩⟩ :=
  http_request_error_status ⟨404, "not found", [], none⟩ (by decide) (by decide)

/-- C4: every HTTP response with status 204 makes `request` return no
content (`None`) without raising. -/
theorem http_request_no_content (resp : RawHTTPResponse)
    (h : resp.status_code = 204) :
    (http_request resp).2 = .ok .noContent := by
  simp [http_request, h]

/-- Witness for C4: a concrete 204 response yields `noContent`. -/
theorem http_request_no_content_witness :
    (http_request ⟨204, "", [], none⟩).2 = .ok .noContent :=
  http_request_no_content ⟨204, "", [], none⟩ rfl

/-- C5: constructing an `HTTPResponse` from a response whose body fails to
decode sets the parsed body to `none` without raising, and for a non-204
status outside the error ranges the request returns the raw response object
instead of raising. -/
theorem http_request_decode_fallback (resp : RawHTTPResponse)
    (hjson : resp.jsonBody = none) :
    (HTTPResponse.make resp).json = none ∧
      (resp.status_code ≠ 204 →
        ¬(400 ≤ resp.status_code ∧ resp.status_code < 600) →
        (http_request resp).2 = .ok (.rawResponse resp)) := by
  refine ⟨by simp [HTTPResponse.make, hjson], fun h204 herr => ?_⟩
  simp [http_request, raise_for_status, h204, herr, hjson]

/-- Witness for C5: a 200 response with an undecodable body yields the raw
response object and a `none` parsed body. -/
theorem http_request_decode_fallback_witness :
    (HTTPResponse.make ⟨200, "not json", [], none⟩).json = none ∧
      (http_request ⟨200, "not json", [], none⟩).2 =
        .ok (.rawResponse ⟨200, "not json", [], none⟩) := by
  have h := http_request_decode_fallback ⟨200, "not json", [], none⟩ rfl
  exact ⟨h.1, h.2 (by decide) (by decide)⟩

/-- C10: on a 4xx or 5xx response the last-response slot receives the
`HTTPResponse` of the failed attempt, carrying its status and headers, while
the call raises the `HTTPError`; the caller can thus still inspect the
failed attempt after catching. -/
theorem http_request_last_response_on_error (resp : RawHTTPResponse)
    (h400 : 400 ≤ resp.status_code) (h600 : resp.status_code < 600) :
    (http_request resp).1 = HTTPResponse.make resp ∧
      (HTTPResponse.make resp).status = resp.status_code ∧
      (HTTPResponse.make resp).headers = resp.headers ∧
      (http_request resp).2 = .error ⟨resp.status_code, resp⟩ := by
  have h204 : resp.status_code ≠ 204 := by omega
  exact ⟨rfl, rfl, rfl, by simp [http_request, raise_for_status, h204, h400, h600]⟩

/-- Witness for C10: after a 500 response the last-response slot holds a
`Response` with status 500 and the response's headers, and the error carries
status 500. -/
theorem http_request_last_response_on_error_witness :
    (http_request ⟨500, "oops", [("X", "y")], none⟩).1 =
        HTTPResponse.make ⟨500, "oops", [("X", "y")], none⟩ ∧
      (HTTPResponse.make ⟨500, "oops", [("X", "y")], none⟩).status = 500 ∧
      (HTTPResponse.make ⟨500, "oops", [("X", "y")], none⟩).headers = [("X", "y")] ∧
      (http_request ⟨500, "oops", [("X", "y")], none⟩).2 =
        .error ⟨500, ⟨500, "oops", [("X", "y")], none⟩⟩ :=
  http_request_last_response_on_error ⟨500, "oops", [("X", "y")], none⟩
    (by decide) (by decide)

/-- Counterexample for C6: the claim states `serverError` holds iff
`500 <= status < 600`, but the source (`self.status >= 500`) has no upper
bound: a `Response` with status 600 satisfies `server_error` while falling
outside the claimed range. -/
theorem response_server_error_counterexample :
    Response.server_error ⟨.json (.obj []), 600, [], none⟩ = true ∧
      ¬(500 ≤ (600 : Int) ∧ (600 : Int) < 600) := by
  constructor
  · decide
  · decide

/-- C6 (amended): the classification is a pure function of the integer
status: `success` iff `200 <= status < 300`, `client_error` iff
`400 <= status < 500`, `server_error` iff `status >= 500` (no upper bound),
and `error` iff `client_error` or `server_error`. -/
theorem response_classification (r : Response) :
    (r.success = true ↔ 200 ≤ r.status ∧ r.status < 300) ∧
      (r.client_error = true ↔ 400 ≤ r.status ∧ r.status < 500) ∧
      (r.server_error = true ↔ 500 ≤ r.status) ∧
      (r.error = true ↔ (r.client_error = true ∨ r.server_error = true)) := by
  simp [Response.success, Response.client_error, Response.server_error,
    Response.error]

/-- Python `s.strip('/')` on the character list of a string: removes leading
and trailing `'/'` characters (interior slashes are kept). -/
def stripSlashChars (l : List Char) : List Char :=
  ((l.dropWhile (fun c => c == '/')).reverse.dropWhile (fun c => c == '/')).reverse

/-- Python `p.strip('/')` on strings. -/
def pyStripSlashes (s : String) : String :=
  String.mk (stripSlashChars s.data)

/-- Python `filter(None, parts)` over a tuple whose entries are strings or
`None`: keeps exactly the truthy entries, dropping `None` and `''`. -/
def pyFilterTruthy (parts : List (Option String)) : List String :=
  parts.filterMap (fun p =>
    match p with
    | none => none
    | some s => if s = "" then none else some s)

/-- `APIBase.url` (api.py lines 35-37): prepends the client endpoint and the
class `PATH`, filters out falsy parts, strips slashes from each survivor and
joins with `'/'`. -/
def APIBase.url (endpoint PATH : String) (parts : List (Option String)) : String :=
  String.intercalate "/"
    ((pyFilterTruthy (some endpoint :: some PATH :: parts)).map pyStripSlashes)

/-- `MQTTAPIBase.url` (api.py lines 203-206): same join over `PATH` and the
parts (no endpoint), with a `'/'` prepended by `'/{0}'.format(...)`. -/
def MQTTAPIBase.url (PATH : String) (parts : List (Option String)) : String :=
  "/" ++ String.intercalate "/"
    ((pyFilterTruthy (some PATH :: parts)).map pyStripSlashes)

/-- Whether a character list contains two consecutive `'/'` characters. -/
def hasDoubleSlash : List Char → Bool
  | '/' :: '/' :: _ => true
  | _ :: cs => hasDoubleSlash cs
  | [] => false

/-- Counterexample for C7: the claim promises a string with no double
slashes, but `filter(None, parts)` runs before `strip('/')`, so the default
`PATH = '/'` survives the filter and strips to the empty segment, producing
`'//'` in the join; the scheme separator of the endpoint survives as well.
With the default `PATH` and one part `'status'`, `APIBase.url` yields
`http://api-m2x.att.com/v2//status`. -/
theorem url_double_slash_counterexample :
    APIBase.url "http://api-m2x.att.com/v2" "/" [some "status"] =
        "http://api-m2x.att.com/v2//status" ∧
      hasDoubleSlash (APIBase.url "http://api-m2x.att.com/v2" "/"
        [some "status"]).data = true ∧
      hasDoubleSlash (MQTTAPIBase.url "/" [some "status"]).data = true := by
  refine ⟨by decide, by decide, by decide⟩

/-- Helper for C7: dropping a falsy part anywhere leaves the filtered
segment list unchanged. -/
theorem pyFilterTruthy_falsy (l1 l2 : List (Option String)) (p : Option String)
    (hp : p = none ∨ p = some "") :
    pyFilterTruthy (l1 ++ p :: l2) = pyFilterTruthy (l1 ++ l2) := by
  rcases hp with h | h <;> subst h <;>
    simp [pyFilterTruthy, List.filterMap_append]

/-- C7 (amended): the URL builders drop `None`/empty segments before
stripping, strip leading and trailing slashes from each kept segment and
join with `'/'`; the output is identical no matter how many empty or absent
segments are interspersed (the no-double-slash part of the original claim
fails: a kept segment may strip to the empty string, see the
counterexample). -/
theorem url_ignores_empty_segments (endpoint PATH : String)
    (l1 l2 : List (Option String)) (p : Option String)
    (hp : p = none ∨ p = some "") :
    APIBase.url endpoint PATH (l1 ++ p :: l2) = APIBase.url endpoint PATH (l1 ++ l2) ∧
      MQTTAPIBase.url PATH (l1 ++ p :: l2) = MQTTAPIBase.url PATH (l1 ++ l2) := by
  have h1 := pyFilterTruthy_falsy (some endpoint :: some PATH :: l1) l2 p hp
  have h2 := pyFilterTruthy_falsy (some PATH :: l1) l2 p hp
  simp only [List.cons_append] at h1 h2
  exact ⟨by simp only [APIBase.url, h1], by simp only [MQTTAPIBase.url, h2]⟩

/-- Witness for C7's amended theorem: inserting a `None` part between
`'devices'` and `'streams'` leaves both built URLs unchanged. -/
theorem url_ignores_empty_segments_witness :
    APIBase.url "http://api-m2x.att.com/v2" "/" ([some "devices"] ++ none :: [some "streams"]) =
        APIBase.url "http://api-m2x.att.com/v2" "/" ([some "devices"] ++ [some "streams"]) ∧
      MQTTAPIBase.url "/" ([some "devices"] ++ none :: [some "streams"]) =
        MQTTAPIBase.url "/" ([some "devices"] ++ [some "streams"]) :=
  url_ignores_empty_segments "http://api-m2x.att.com/v2" "/"
    [some "devices"] [some "streams"] none (Or.inl rfl)

/-- Python `s.split(',')` on character lists: always returns at least one
(possibly empty) piece; `''.split(',') == ['']`. -/
def splitComma : List Char → List (List Char)
  | [] => [[]]
  | c :: cs =>
    if c = ',' then
      [] :: splitComma cs
    else
      match splitComma cs with
      | [] => [[c]]
      | t :: ts => (c :: t) :: ts

/-- Python `','.join(pieces)` on character lists. -/
def joinComma : List (List Char) → List Char
  | [] => []
  | [t] => t
  | t :: ts => t ++ ',' :: joinComma ts

theorem splitComma_ne_nil (l : List Char) : splitComma l ≠ [] := by
  cases l with
  | nil => simp [splitComma]
  | cons c cs =>
    by_cases hc : c = ','
    · simp [splitComma, hc]
    · rcases h : splitComma cs with _ | ⟨t, ts⟩ <;> simp [splitComma, hc, h]

/-- Joining the comma-split pieces of any character list restores it. -/
theorem joinComma_splitComma (l : List Char) : joinComma (splitComma l) = l := by
  induction l with
  | nil => rfl
  | cons c cs ih =>
    by_cases hc : c = ','
    · subst hc
      rcases h : splitComma cs with _ | ⟨t, ts⟩
      · exact absurd h (splitComma_ne_nil cs)
      · rw [h] at ih
        cases ts with
        | nil => simpa [splitComma, joinComma, h] using ih
        | cons t' ts' => simpa [splitComma, joinComma, h] using ih
    · rcases h : splitComma cs with _ | ⟨t, ts⟩
      · exact absurd h (splitComma_ne_nil cs)
      · rw [h] at ih
        cases ts with
        | nil => simpa [splitComma, joinComma, hc, h] using ih
        | cons t' ts' => simpa [splitComma, joinComma, hc, h] using ih

/-- Model of a Python `datetime.datetime`: the broken-down fields plus an
optional UTC offset in minutes (`none` = naive, `some 0` = `iso8601.UTC`). -/
structure PyDateTime where
  year : Nat
  month : Nat
  day : Nat
  hour : Nat
  minute : Nat
  second : Nat
  microsecond : Nat
  tzinfo : Option Int

/-- Field ranges enforced by Python's `datetime` constructor, with the year
restricted to four digits from below as well (CPython's `%Y` zero-padding
below year 1000 is platform dependent; M2X timestamps are contemporary). -/
def PyDateTime.valid (d : PyDateTime) : Prop :=
  1000 ≤ d.year ∧ d.year ≤ 9999 ∧ 1 ≤ d.month ∧ d.month ≤ 12 ∧
    1 ≤ d.day ∧ d.day ≤ 31 ∧ d.hour ≤ 23 ∧ d.minute ≤ 59 ∧
    d.second ≤ 59 ∧ d.microsecond ≤ 999999

instance (d : PyDateTime) : Decidable d.valid := by
  unfold PyDateTime.valid; infer_instance

/-- The ASCII digit character of `n % 10`. -/
def digitChar (n : Nat) : Char := Char.ofNat (48 + n % 10)

/-- Zero-padded fixed-width decimal rendering, most significant digit
first, as produced by `strftime` fields such as `%Y`, `%m` and `%f`. -/
def natToFixedChars : Nat → Nat → List Char
  | 0, _ => []
  | w + 1, n => digitChar (n / 10 ^ w) :: natToFixedChars w (n % 10 ^ w)

/-- The character stream of
`dtime.strftime('%Y-%m-%dT%H:%M:%S.%fZ')` (utils.py line 58). -/
def strftime_wire (d : PyDateTime) : List Char :=
  natToFixedChars 4 d.year ++ ('-' :: (natToFixedChars 2 d.month ++
    ('-' :: (natToFixedChars 2 d.day ++ ('T' :: (natToFixedChars 2 d.hour ++
    (':' :: (natToFixedChars 2 d.minute ++ (':' :: (natToFixedChars 2 d.second ++
    ('.' :: (natToFixedChars 6 d.microsecond ++ ['Z']))))))))))))

/-- `to_iso` (utils.py lines 54-58) on a datetime input:
`dtime.replace(tzinfo=iso8601.UTC).strftime('%Y-%m-%dT%H:%M:%S.%fZ')`. The
string-input branch (which parses first) is not needed by the claims;
`strftime` prints the wall-clock fields unchanged since the format has no
offset directive. -/
def to_iso (d : PyDateTime) : String :=
  String.mk (strftime_wire { d with tzinfo := some 0 })

/-- Fixed-width decimal parser: consumes exactly `w` digit characters,
accumulating their value onto `acc`. -/
def parseFixedNat : Nat → Nat → List Char → Option (Nat × List Char)
  | 0, acc, cs => some (acc, cs)
  | _ + 1, _, [] => none
  | w + 1, acc, c :: cs =>
    if c.isDigit then parseFixedNat w (acc * 10 + (c.toNat - 48)) cs else none

/-- Consume one expected literal character. -/
def expectChar (c : Char) : List Char → Option (List Char)
  | [] => none
  | c' :: cs => if c' = c then some cs else none

/-- Modelled from the behaviour of the external `iso8601` library (not in
src/): `iso8601.parse_date` on the exact wire format
`YYYY-MM-DDTHH:MM:SS.ffffffZ` produced by `to_iso`, yielding a datetime
tagged `iso8601.UTC` with the six fractional digits as microseconds;
`ParseError` (modelled as `none`) on anything not matching this shape. The
library also accepts other ISO-8601 shapes, which `to_iso` never emits. -/
def parse_date_chars (cs : List Char) : Option PyDateTime :=
  (parseFixedNat 4 0 cs).bind fun yc =>
  (expectChar '-' yc.2).bind fun cs1 =>
  (parseFixedNat 2 0 cs1).bind fun moc =>
  (expectChar '-' moc.2).bind fun cs2 =>
  (parseFixedNat 2 0 cs2).bind fun dyc =>
  (expectChar 'T' dyc.2).bind fun cs3 =>
  (parseFixedNat 2 0 cs3).bind fun hc =>
  (expectChar ':' hc.2).bind fun cs4 =>
  (parseFixedNat 2 0 cs4).bind fun mic =>
  (expectChar ':' mic.2).bind fun cs5 =>
  (parseFixedNat 2 0 cs5).bind fun secc =>
  (expectChar '.' secc.2).bind fun cs6 =>
  (parseFixedNat 6 0 cs6).bind fun usc =>
  (expectChar 'Z' usc.2).bind fun cs7 =>
  if cs7.isEmpty then
    some ⟨yc.1, moc.1, dyc.1, hc.1, mic.1, secc.1, usc.1, some 0⟩
  else
    none

/-- `iso8601.parse_date` on strings (see `parse_date_chars`). -/
def parse_date (s : String) : Option PyDateTime := parse_date_chars s.data

theorem digit_facts : ∀ k < 10,
    (Char.ofNat (48 + k)).isDigit = true ∧ (Char.ofNat (48 + k)).toNat = 48 + k := by
  decide

theorem digitChar_isDigit (n : Nat) : (digitChar n).isDigit = true :=
  (digit_facts (n % 10) (Nat.mod_lt _ (by norm_num))).1

theorem digitChar_toNat_sub (n : Nat) : (digitChar n).toNat - 48 = n % 10 := by
  have h := (digit_facts (n % 10) (Nat.mod_lt _ (by norm_num))).2
  unfold digitChar
  omega

/-- Parsing a fixed-width rendering recovers the rendered number and leaves
the rest of the input untouched. -/
theorem parseFixedNat_natToFixedChars (w : Nat) :
    ∀ (n acc : Nat) (rest : List Char), n < 10 ^ w →
      parseFixedNat w acc (natToFixedChars w n ++ rest) =
        some (acc * 10 ^ w + n, rest) := by
  induction w with
  | zero =>
    intro n acc rest hn
    interval_cases n
    simp [natToFixedChars, parseFixedNat]
  | succ w ih =>
    intro n acc rest hn
    have hpow : 0 < 10 ^ w := Nat.pos_pow_of_pos w (by norm_num)
    have hq : n / 10 ^ w < 10 := by
      rw [Nat.div_lt_iff_lt_mul hpow]
      have : 10 ^ w * 10 = 10 ^ (w + 1) := (pow_succ 10 w).symm
      omega
    have hr : n % 10 ^ w < 10 ^ w := Nat.mod_lt _ hpow
    simp only [natToFixedChars, List.cons_append, parseFixedNat,
      digitChar_isDigit, if_true, digitChar_toNat_sub, List.append_eq]
    rw [Nat.mod_eq_of_lt hq, ih (n % 10 ^ w) (acc * 10 + n / 10 ^ w) rest hr]
    have hdm := Nat.div_add_mod n (10 ^ w)
    have key : ∀ q r p : Nat, p * q + r = n →
        (acc * 10 + q) * p + r = acc * (p * 10) + n := by
      intro q r p h
      subst h
      ring
    rw [pow_succ, key (n / 10 ^ w) (n % 10 ^ w) (10 ^ w) hdm]

theorem expectChar_cons (c : Char) (cs : List Char) :
    expectChar c (c :: cs) = some cs := by
  simp [expectChar]

/-- Parsing the wire encoding of a valid datetime recovers its fields, with
the timezone tagged UTC. -/
theorem parse_date_to_iso (d : PyDateTime) (h : d.valid) :
    parse_date (to_iso d) = some { d with tzinfo := some 0 } := by
  obtain ⟨h1, h2, h3, h4, h5, h6, h7, h8, h9, h10⟩ := h
  have hy : d.year < 10 ^ 4 := by norm_num; omega
  have hmo : d.month < 10 ^ 2 := by norm_num; omega
  have hdy : d.day < 10 ^ 2 := by norm_num; omega
  have hh : d.hour < 10 ^ 2 := by norm_num; omega
  have hmi : d.minute < 10 ^ 2 := by norm_num; omega
  have hs : d.second < 10 ^ 2 := by norm_num; omega
  have hus : d.microsecond < 10 ^ 6 := by norm_num; omega
  show parse_date_chars (strftime_wire { d with tzinfo := some 0 }) = _
  have hwire : strftime_wire { d with tzinfo := some 0 } =
      natToFixedChars 4 d.year ++ ('-' :: (natToFixedChars 2 d.month ++
        ('-' :: (natToFixedChars 2 d.day ++ ('T' :: (natToFixedChars 2 d.hour ++
        (':' :: (natToFixedChars 2 d.minute ++ (':' :: (natToFixedChars 2 d.second ++
        ('.' :: (natToFixedChars 6 d.microsecond ++ ['Z'])))))))))))) := rfl
  rw [hwire]
  unfold parse_date_chars
  rw [parseFixedNat_natToFixedChars 4 d.year 0 _ hy]
  simp only [Option.some_bind, expectChar_cons, Nat.zero_mul, Nat.zero_add]
  rw [parseFixedNat_natToFixedChars 2 d.month 0 _ hmo]
  simp only [Option.some_bind, expectChar_cons, Nat.zero_mul, Nat.zero_add]
  rw [parseFixedNat_natToFixedChars 2 d.day 0 _ hdy]
  simp only [Option.some_bind, expectChar_cons, Nat.zero_mul, Nat.zero_add]
  rw [parseFixedNat_natToFixedChars 2 d.hour 0 _ hh]
  simp only [Option.some_bind, expectChar_cons, Nat.zero_mul, Nat.zero_add]
  rw [parseFixedNat_natToFixedChars 2 d.minute 0 _ hmi]
  simp only [Option.some_bind, expectChar_cons, Nat.zero_mul, Nat.zero_add]
  rw [parseFixedNat_natToFixedChars 2 d.second 0 _ hs]
  simp only [Option.some_bind, expectChar_cons, Nat.zero_mul, Nat.zero_add]
  rw [parseFixedNat_natToFixedChars 6 d.microsecond 0 _ hus]
  simp only [Option.some_bind, expectChar_cons, Nat.zero_mul, Nat.zero_add,
    List.isEmpty_nil, if_true]

/-- A server-side attribute value after `from_server` (utils.py lines
67-75): the raw string, an opportunistically parsed datetime, or the split
tag list. -/
inductive AttrVal where
  | str (s : String)
  | dt (d : PyDateTime)
  | strList (l : List String)

/-- `from_server` (utils.py lines 67-75) on a string-valued attribute: the
field named `tags` is split on commas; any other field is tried as a
datetime via `iso8601.parse_date`, falling back to the raw string when that
raises `ParseError`. -/
def from_server (name : String) (value : String) : AttrVal :=
  if name = "tags" then
    .strList ((splitComma value.data).map String.mk)
  else
    match parse_date value with
    | some dt => .dt dt
    | none => .str value

/-- `tags_to_server` (utils.py lines 61-64) on a list input:
`','.join(tags)`. The scalar branch, which first wraps a lone tag into a
singleton list, is not needed by the claims. -/
def tags_to_server (tags : List String) : String :=
  String.mk (joinComma (tags.map String.data))

/-- C8: encoding a valid datetime to the wire format
`YYYY-MM-DDTHH:MM:SS.ffffffZ` with `to_iso` and decoding it with the
`from_server` helper (under any non-tag field name) yields the same
broken-down value to microsecond precision, tagged UTC. -/
theorem datetime_wire_roundtrip (d : PyDateTime) (name : String)
    (hvalid : d.valid) (hname : name ≠ "tags") :
    from_server name (to_iso d) = .dt { d with tzinfo := some 0 } := by
  simp [from_server, hname, parse_date_to_iso d hvalid]

/-- Witness for C8: a concrete timestamp round-trips through the wire
format and comes back UTC-tagged with identical fields. -/
theorem datetime_wire_roundtrip_witness :
    from_server "at" (to_iso ⟨2015, 6, 1, 12, 30, 45, 123456, none⟩) =
      .dt ⟨2015, 6, 1, 12, 30, 45, 123456, some 0⟩ :=
  datetime_wire_roundtrip ⟨2015, 6, 1, 12, 30, 45, 123456, none⟩ "at"
    (by decide) (by decide)

/-- C9: splitting a comma-separated tag string with the `from_server` tag
decoding and re-joining the pieces with `tags_to_server` restores the
original string (stated, as in the claim, for strings none of whose tags
contains an embedded comma). -/
theorem tags_split_join_roundtrip (s : String) (ts : List String)
    (hsplit : from_server "tags" s = .strList ts)
    (hnc : ∀ t ∈ ts, ',' ∉ t.data) :
    tags_to_server ts = s := by
  have hcomp : from_server "tags" s = .strList ((splitComma s.data).map String.mk) := by
    unfold from_server
    rw [if_pos rfl]
  have heq := hcomp.symm.trans hsplit
  injection heq with hts
  subst hts
  unfold tags_to_server
  rw [List.map_map]
  have hcm : (String.data ∘ String.mk) = id := rfl
  rw [hcm, List.map_id, joinComma_splitComma]

/-- Witness for C9: the tag string `a,b` splits into two comma-free tags
and re-joins to itself. -/
theorem tags_split_join_roundtrip_witness :
    tags_to_server ["a", "b"] = "a,b" :=
  tags_split_join_roundtrip "a,b" ["a", "b"] rfl (by decide)

/-- The pending-reply table `self.responses`: a Python dict keyed by the
reply envelope's `id`, modelled as an association list with unique keys. -/
abbrev ResponseTable := List (String × JsonVal)

/-- Python dict assignment `table[k] = v`: replace in place when the key is
present, append otherwise. -/
def tableInsert : ResponseTable → String → JsonVal → ResponseTable
  | [], k, v => [(k, v)]
  | (k₀, v₀) :: t, k, v =>
    if k = k₀ then (k, v) :: t else (k₀, v₀) :: tableInsert t k v

/-- Python `k in table` / `table[k]`: lookup by key. -/
def tableLookup : ResponseTable → String → Option JsonVal
  | [], _ => none
  | (k₀, v₀) :: t, k => if k = k₀ then some v₀ else tableLookup t k

/-- Python `table.pop(k)`: the table with the entry keyed `k` removed. -/
def tablePop : ResponseTable → String → ResponseTable
  | [], _ => []
  | (k₀, v₀) :: t, k => if k = k₀ then t else (k₀, v₀) :: tablePop t k

/-- `MQTTAPIBase._on_message` (api.py lines 193-195): the decoded payload is
stored into the pending-reply table under its `id` field. An envelope
without a string `id` (where the Python would raise `KeyError` out of the
callback, leaving the table unchanged) leaves the table unchanged. -/
def on_message (responses : ResponseTable) (msg : JsonVal) : ResponseTable :=
  match getField msg "id" with
  | some (.str i) => tableInsert responses i msg
  | _ => responses

/-- The mutable state of an `MQTTAPIBase` instance that `wait_for_response`
touches: the pending-reply table and the thread-local last-response slot. -/
structure MQTTState where
  responses : ResponseTable
  last_response : Option Response

/-- The paho constant `MQTT_ERR_SUCCESS`. -/
def MQTT_ERR_SUCCESS : Int := 0

/-- The default `timeout` of `MQTTAPIBase.__init__` (api.py line 168). -/
def MQTT_default_timeout : Nat := 600

/-- The `MQTTResponse` constructor (api.py lines 118-126): the whole reply
envelope as raw and parsed body, `status` from the envelope's `status`
field, empty headers. `none` models the `KeyError` raised when the envelope
has no `status` field (non-integer statuses are outside the model). -/
def MQTTResponse.make (response : JsonVal) : Option Response :=
  match getField response "status" with
  | some (.num s) =>
    some { raw := .json response, status := s, headers := [], json := some response }
  | _ => none

/-- The polling loop of `wait_for_response` (api.py lines 209-217) with the
broker's deliveries made explicit: `arrivals n` is the list of reply
envelopes the background network loop stores (via `_on_message`) during the
`n`-th `time.sleep(.1)`. Each iteration first re-checks membership, then
sleeps (absorbing that iteration's arrivals), then decrements the countdown,
breaking once it is exhausted; `timeout = None` (poll forever) is not
modelled, as the claims concern the bounded countdown. Returns the table as
it stands when the loop exits. -/
def waitLoop (arrivals : Nat → List JsonVal) (msg_id : String) :
    Nat → Nat → ResponseTable → ResponseTable
  | timeout, n, t =>
    if (tableLookup t msg_id).isSome then t
    else
      let t' := (arrivals n).foldl on_message t
      match timeout with
      | 0 => t'
      | timeout' + 1 => waitLoop arrivals msg_id timeout' (n + 1) t'

/-- `MQTTAPIBase.wait_for_response` (api.py lines 208-223): poll until the
id appears or the countdown ends; on a match pop the entry, store an
`MQTTResponse` of the whole envelope as last-response and return the
envelope's `body` if present, else the whole envelope; otherwise fall
through returning `None`. The `Except` error is the `KeyError` of
`MQTTResponse` on an envelope with no `status` (the pop has already
happened; the last-response slot is left untouched). -/
def wait_for_response (arrivals : Nat → List JsonVal) (timeout : Nat)
    (msg_id : String) (st : MQTTState) :
    Except Unit (Option JsonVal) × MQTTState :=
  let t := waitLoop arrivals msg_id timeout 0 st.responses
  match tableLookup t msg_id with
  | some response =>
    let t' := tablePop t msg_id
    match MQTTResponse.make response with
    | some r =>
      let ret :=
        match getField response "body" with
        | some b => b
        | none => response
      (.ok (some ret), { responses := t', last_response := some r })
    | none => (.error (), { responses := t', last_response := st.last_response })
  | none => (.ok none, { responses := t, last_response := st.last_response })

/-- `MQTTAPIBase.request` (api.py lines 225-237): `msg_id` stands for the
generated `uuid.uuid4().hex` and `publish_status` for the status returned
by `self.mqtt.publish` (envelope serialization and the publish itself have
no further effect on this logic); only a successful publish proceeds to
`wait_for_response`, otherwise the function falls through returning
`None`. -/
def mqtt_request (arrivals : Nat → List JsonVal) (timeout : Nat)
    (msg_id : String) (publish_status : Int) (st : MQTTState) :
    Except Unit (Option JsonVal) × MQTTState :=
  if publish_status = MQTT_ERR_SUCCESS then
    wait_for_response arrivals timeout msg_id st
  else
    (.ok none, st)

theorem tableLookup_tableInsert (t : ResponseTable) (k k' : String) (v : JsonVal) :
    tableLookup (tableInsert t k v) k' =
      if k' = k then some v else tableLookup t k' := by
  induction t with
  | nil => simp [tableInsert, tableLookup]
  | cons hd tl ih =>
    obtain ⟨k₀, v₀⟩ := hd
    by_cases h0 : k = k₀
    · subst h0
      by_cases h1 : k' = k <;> simp [tableInsert, tableLookup, h1]
    · by_cases h1 : k' = k₀
      · subst h1
        have h2 : ¬ k' = k := fun hh => h0 hh.symm
        simp [tableInsert, tableLookup, h0, h2]
      · simp [tableInsert, tableLookup, h0, h1, ih]

theorem tablePop_tableInsert (t : ResponseTable) (k : String) (v : JsonVal)
    (h : tableLookup t k = none) : tablePop (tableInsert t k v) k = t := by
  induction t with
  | nil => simp [tableInsert, tablePop]
  | cons hd tl ih =>
    obtain ⟨k₀, v₀⟩ := hd
    by_cases h0 : k = k₀
    · simp [tableLookup, h0] at h
    · have htl : tableLookup tl k = none := by
        simpa [tableLookup, h0] using h
      simp [tableInsert, tablePop, h0, ih htl]

theorem waitLoop_found (arrivals : Nat → List JsonVal) (msg_id : String)
    (timeout n : Nat) (t : ResponseTable)
    (h : (tableLookup t msg_id).isSome = true) :
    waitLoop arrivals msg_id timeout n t = t := by
  rw [waitLoop]
  simp [h]

theorem tableLookup_on_message (t : ResponseTable) (e : JsonVal) (k : String)
    (h : getField e "id" ≠ some (.str k)) :
    tableLookup (on_message t e) k = tableLookup t k := by
  unfold on_message
  cases hg : getField e "id" with
  | none => rfl
  | some v =>
    cases v with
    | str i =>
      have hik : ¬ k = i := fun hh => h (by rw [hg, hh])
      simp [tableLookup_tableInsert, hik]
    | null => rfl
    | bool b => rfl
    | num n => rfl
    | arr l => rfl
    | obj f => rfl

theorem tableLookup_foldl_on_message (msgs : List JsonVal) (t : ResponseTable)
    (k : String)
    (h : ∀ e ∈ msgs, getField e "id" ≠ some (.str k)) :
    tableLookup (msgs.foldl on_message t) k = tableLookup t k := by
  induction msgs generalizing t with
  | nil => rfl
  | cons e rest ih =>
    rw [List.foldl_cons, ih _ (fun x hx => h x (List.mem_cons_of_mem _ hx)),
      tableLookup_on_message t e k (h e (List.mem_cons_self _ _))]

theorem waitLoop_no_match (arrivals : Nat → List JsonVal) (msg_id : String) :
    ∀ (timeout n : Nat) (t : ResponseTable),
      (∀ i, n ≤ i → i ≤ n + timeout →
        ∀ e ∈ arrivals i, getField e "id" ≠ some (.str msg_id)) →
      tableLookup t msg_id = none →
      tableLookup (waitLoop arrivals msg_id timeout n t) msg_id = none := by
  intro timeout
  induction timeout with
  | zero =>
    intro n t harr ht
    rw [waitLoop]
    simp [ht, tableLookup_foldl_on_message (arrivals n) t msg_id
      (harr n le_rfl (by omega))]
  | succ timeout ih =>
    intro n t harr ht
    rw [waitLoop]
    simp only [ht, Option.isSome_none, Bool.false_eq_true, if_false]
    exact ih (n + 1)
      ((arrivals n).foldl on_message t)
      (fun i h1 h2 => harr i (by omega) (by omega))
      (by rw [tableLookup_foldl_on_message (arrivals n) t msg_id
        (harr n le_rfl (by omega)), ht])

/-- C2: an MQTT `request` whose publish does not report success, or whose
reply id never shows up in the pending-reply table within the countdown of
poll iterations, returns `None` without raising. -/
theorem mqtt_request_no_result (arrivals : Nat → List JsonVal) (timeout : Nat)
    (msg_id : String) (publish_status : Int) (st : MQTTState)
    (h : publish_status ≠ MQTT_ERR_SUCCESS ∨
      (tableLookup st.responses msg_id = none ∧
        ∀ i, i ≤ timeout →
          ∀ e ∈ arrivals i, getField e "id" ≠ some (.str msg_id))) :
    (mqtt_request arrivals timeout msg_id publish_status st).1 = .ok none := by
  by_cases hp : publish_status = MQTT_ERR_SUCCESS
  · rcases h with h | ⟨h1, h2⟩
    · exact absurd hp h
    · have hfin : tableLookup (waitLoop arrivals msg_id timeout 0 st.responses)
          msg_id = none :=
        waitLoop_no_match arrivals msg_id timeout 0 st.responses
          (fun i _ _ => h2 i (by omega)) h1
      simp [mqtt_request, hp, wait_for_response, hfin]
  · simp [mqtt_request, hp]

/-- Witness for C2: with the default timeout of 600 iterations, a
successful publish whose reply never arrives yields `None` with no
error. -/
theorem mqtt_request_no_result_witness :
    (mqtt_request (fun _ => []) MQTT_default_timeout "y" 0 ⟨[], none⟩).1 =
      .ok none :=
  mqtt_request_no_result (fun _ => []) MQTT_default_timeout "y" 0 ⟨[], none⟩
    (Or.inr ⟨rfl, fun _ _ e he => (List.not_mem_nil e he).elim⟩)

theorem waitLoop_single_arrival (e : JsonVal) (msg_id : String) (k : Nat)
    (hid : getField e "id" = some (.str msg_id)) :
    ∀ (timeout n : Nat) (t : ResponseTable),
      tableLookup t msg_id = none → n ≤ k → k ≤ n + timeout →
      waitLoop (fun i => if i = k then [e] else []) msg_id timeout n t =
        tableInsert t msg_id e := by
  intro timeout
  induction timeout with
  | zero =>
    intro n t ht hnk hkn
    have hnk' : n = k := by omega
    subst hnk'
    rw [waitLoop]
    simp [ht, on_message, hid]
  | succ timeout ih =>
    intro n t ht hnk hkn
    rw [waitLoop]
    simp only [ht, Option.isSome_none, Bool.false_eq_true, if_false]
    by_cases hn : n = k
    · subst hn
      have ht' : (tableLookup (tableInsert t msg_id e) msg_id).isSome = true := by
        simp [tableLookup_tableInsert]
      simp [on_message, hid,
        waitLoop_found _ msg_id timeout (n + 1) (tableInsert t msg_id e) ht']
    · have harr : (if n = k then [e] else []) = ([] : List JsonVal) := by
        simp [hn]
      simp only [harr, List.foldl_nil]
      exact ih (n + 1) t ht (by omega) (by omega)

/-- C1: when the single reply envelope with the polled-for id is delivered
within the countdown, `wait_for_response` pops it from the pending-reply
table (restoring the table), stores an `MQTTResponse` of the whole reply —
status taken from the envelope's `status` field, headers empty — as the
last response, and returns the envelope's `body` field if present,
otherwise the whole envelope. -/
theorem wait_for_response_match (e : JsonVal) (msg_id : String) (stat : Int)
    (k timeout : Nat) (st : MQTTState)
    (hid : getField e "id" = some (.str msg_id))
    (hstat : getField e "status" = some (.num stat))
    (hfresh : tableLookup st.responses msg_id = none)
    (hk : k ≤ timeout) :
    wait_for_response (fun i => if i = k then [e] else []) timeout msg_id st =
      (.ok (some ((getField e "body").getD e)),
        { responses := st.responses,
          last_response :=
            some { raw := .json e, status := stat, headers := [],
                   json := some e } }) := by
  have hloop := waitLoop_single_arrival e msg_id k hid timeout 0 st.responses
    hfresh (Nat.zero_le k) (by omega)
  simp only [wait_for_response, hloop, tableLookup_tableInsert,
    MQTTResponse.make, hstat, tablePop_tableInsert st.responses msg_id e hfresh]
  cases hb : getField e "body" <;> simp [hb, hstat]

/-- Witness for C1: delivering the reply envelope
`{id: x, status: 200, body: {}}` during the first poll iteration resolves
the waiter for `x` with body `{}`, leaves the table empty again and stores
a status-200, empty-header last response wrapping the whole envelope. -/
theorem wait_for_response_match_witness :
    wait_for_response
        (fun i => if i = 0 then
          [JsonVal.obj [("id", .str "x"), ("status", .num 200), ("body", .obj [])]]
        else []) 0 "x" ⟨[], none⟩ =
      (.ok (some (.obj [])),
        { responses := [],
          last_response :=
            some { raw := .json (.obj [("id", .str "x"), ("status", .num 200),
                     ("body", .obj [])]),
                   status := 200, headers := [],
                   json := some (.obj [("id", .str "x"), ("status", .num 200),
                     ("body", .obj [])]) } }) :=
  wait_for_response_match
    (.obj [("id", .str "x"), ("status", .num 200), ("body", .obj [])])
    "x" 200 0 0 ⟨[], none⟩ rfl rfl rfl (Nat.le_refl 0)
